import Mathlib

/-!
Shallow embedding of the command-safety classification and execution engine of
TerminalAI (ai.py). Pure string manipulation from the Python source is
translated onto `List Char`; the regular-expression matcher of the standard
library is kept as an explicit function parameter, instantiated with a
case-insensitive substring matcher for the metacharacter-free patterns used in
concrete evaluations.
-/

/-- The whitespace characters stripped by Python `str.strip()` (ASCII part). -/
def isPySpace (c : Char) : Bool :=
  c == ' ' || c == '\t' || c == '\n' || c == '\r' || c == '\x0b' || c == '\x0c'

/-- Python `str.strip()`: remove leading and trailing whitespace. -/
def pyStrip (s : String) : String :=
  String.mk (((s.toList.dropWhile isPySpace).reverse.dropWhile isPySpace).reverse)

/-- Splitter for Python `str.split(newline)`: accumulates the current chunk in
reverse and emits it at every newline; the final chunk is always emitted, so an
empty input yields one empty chunk, as in Python. -/
def splitLinesChars (cur : List Char) : List Char → List (List Char)
  | [] => [cur.reverse]
  | c :: cs =>
    if c == '\n' then cur.reverse :: splitLinesChars [] cs
    else splitLinesChars (c :: cur) cs

/-- Python `s.split(single newline separator)`. -/
def pySplitLines (s : String) : List String :=
  (splitLinesChars [] s.toList).map String.mk

/-- Character-list version of Python string equality on an initial segment. -/
def charsMatchFront : List Char → List Char → Bool
  | [], _ => true
  | _ :: _, [] => false
  | a :: as, b :: bs => a == b && charsMatchFront as bs

/-- Character-list version of Python substring containment. -/
def charsContains (needle : List Char) : List Char → Bool
  | [] => needle.isEmpty
  | b :: bs => charsMatchFront needle (b :: bs) || charsContains needle bs

/-- Python `sub in s` for strings. -/
def strIn (sub s : String) : Bool := charsContains sub.toList s.toList

/-- Python `s.startswith(pre)`. -/
def pyStartsWith (s pre : String) : Bool := charsMatchFront pre.toList s.toList

/-- Python `s.lower()` (ASCII case mapping, which covers the command strings
and pattern tokens the source compares). -/
def pyLower (s : String) : String := String.mk (s.toList.map Char.toLower)

/-- Model of `re.search(pat, cmd, re.IGNORECASE)` truthiness for patterns that
contain no regex metacharacters: case-insensitive substring search. Used only
to instantiate the abstract matcher parameter at concrete inputs. -/
def pySearchLiteral (pat cmd : String) : Bool :=
  strIn (pyLower pat) (pyLower cmd)

/-- ai.py line 194: the fixed reason returned for a safe-pattern hit. -/
def safeReason : String :=
  "Command appears to be safe (basic system information or navigation)"

/-- ai.py line 199: reason for a dangerous-pattern hit, mentioning the pattern. -/
def dangerReasonFor (pat : String) : String :=
  "Command contains potentially dangerous pattern: " ++ pat

/-- ai.py line 203. -/
def pipeReason : String :=
  "Command pipes output to a shell, which could be dangerous"

/-- ai.py line 207. -/
def redirectReason : String :=
  "Command redirects output to system directories"

/-- ai.py line 211. -/
def downloadReason : String :=
  "Command downloads content from the internet"

/-- ai.py line 214. -/
def genericSafeReason : String :=
  "No obvious dangerous patterns detected"

/-- ai.py line 202: shell-invocation tokens searched in the lowercased command. -/
def shellTokens : List String :=
  ["sh", "bash", "powershell", "cmd", "invoke-expression", "iex"]

/-- ai.py line 206: system paths searched in the lowercased command. -/
def systemPaths : List String :=
  ["/etc", "/bin", "/sbin", "/usr", "c:\\windows", "%windir%", "system32"]

/-- ai.py line 210: download-utility tokens tested against the start of the
lowercased command. -/
def downloadTools : List String :=
  ["wget", "curl", "invoke-webrequest", "start-bitstransfer"]

/-- The pattern for-loops of ai.py lines 192-199: return the first pattern in
file order for which the regex search on the command succeeds. `research p c`
stands for the truthiness of `re.search(p, c, re.IGNORECASE)`. -/
def scan_patterns (research : String → String → Bool) (cmd : String) :
    List String → Option String
  | [] => none
  | p :: rest =>
    if research p cmd then some p else scan_patterns research cmd rest

/-- ai.py lines 191-214: `analyze_command_safety` after the two pattern lists
have been read. Safe patterns are scanned first, then dangerous patterns, then
the three heuristics, then the permissive fallback. -/
def analyze_command_safety (research : String → String → Bool)
    (safe_patterns dangerous_patterns : List String) (cmd : String) :
    Bool × String :=
  match scan_patterns research cmd safe_patterns with
  | some _ => (true, safeReason)
  | none =>
    match scan_patterns research cmd dangerous_patterns with
    | some p => (false, dangerReasonFor p)
    | none =>
      if strIn "|" cmd && shellTokens.any (fun t => strIn t (pyLower cmd)) then
        (false, pipeReason)
      else if strIn ">" cmd && systemPaths.any (fun p => strIn p (pyLower cmd)) then
        (false, redirectReason)
      else if downloadTools.any (fun d => pyStartsWith (pyLower cmd) d) then
        (false, downloadReason)
      else
        (true, genericSafeReason)

/-- Condition of a pattern file on disk, as distinguished by the Python
exception model: missing (raises FileNotFoundError), present but unreadable
(raises a different OSError such as PermissionError), or readable content. -/
inductive FileState where
  | absent
  | unreadable
  | content (text : String)

/-- ai.py lines 180, 187: the list comprehension filtering a pattern file into
patterns: keep `line.strip()` for every line whose strip is non-empty and that
does not start with the comment character. -/
def parse_pattern_lines (text : String) : List String :=
  (pySplitLines text).filterMap (fun line =>
    if pyStrip line != "" && !(pyStartsWith line "#") then some (pyStrip line)
    else none)

/-- ai.py lines 178-189: one `try/except FileNotFoundError` block. A missing
file is caught (a warning is printed and the empty list is kept); any other
I/O error is not caught and propagates; a readable file is parsed. The source
defines no default pattern set and performs no write. -/
def read_pattern_file : FileState → Except String (List String)
  | FileState.absent => Except.ok []
  | FileState.unreadable => Except.error "PermissionError"
  | FileState.content t => Except.ok (parse_pattern_lines t)

/-- ai.py lines 173-214: full `analyze_command_safety`, including the pattern
file reads (dangerous first, then safe), with uncaught I/O errors propagating. -/
def analyze_with_files (research : String → String → Bool)
    (dangerFile safeFile : FileState) (cmd : String) :
    Except String (Bool × String) :=
  match read_pattern_file dangerFile with
  | Except.error e => Except.error e
  | Except.ok dangerous_patterns =>
    match read_pattern_file safeFile with
    | Except.error e => Except.error e
    | Except.ok safe_patterns =>
      Except.ok (analyze_command_safety research safe_patterns dangerous_patterns cmd)

/-- The portion of a command to the right of its first pipe character. This
definition follows the words of the specification claim (not the source, which
has no such notion) and exists only to compare the claimed behaviour with the
implemented one. -/
def afterFirstPipe : List Char → List Char
  | [] => []
  | c :: cs => if c == '|' then cs else afterFirstPipe cs

/-- Claimed trigger condition for the pipe heuristic, following the words of
the specification: a pipe is present and a shell token occurs to the right of
it. Spec-side definition for refutation, not a translation of the source. -/
def specPipeTrigger (cmd : String) : Bool :=
  strIn "|" cmd &&
    shellTokens.any (fun t =>
      strIn t (pyLower (String.mk (afterFirstPipe cmd.toList))))

/-- Python `l[-n:]`: the last `n` elements (the whole list when it is shorter). -/
def takeLast {α : Type} (n : Nat) (l : List α) : List α :=
  l.drop (l.length - n)

/-- ai.py lines 864-868: `save_command_history` persists `history[-limit:]`. -/
def save_command_history (history : List String) (limit : Nat) : List String :=
  takeLast limit history

/-- ai.py lines 870-876: `add_to_command_history`. The command is appended and
the capped list persisted unless it equals the immediately preceding entry, in
which case nothing is written and the stored log is unchanged. The cap is the
default `limit=100` of `save_command_history`. -/
def add_to_command_history (history : List String) (command : String) :
    List String :=
  if history.isEmpty = true ∨ history.getLast? ≠ some command then
    save_command_history (history ++ [command]) 100
  else
    history

/-- ai.py line 1091: the list comprehension splitting raw oracle text into
command steps: strip each newline-separated chunk and keep the non-empty ones. -/
def split_oracle_text (raw : String) : List String :=
  ((pySplitLines raw).map pyStrip).filter (fun c => c != "")

/-- ai.py lines 1090-1095: the oracle text is split into steps; when no step
remains the program prints an error and exits with code 1, otherwise it
proceeds with the step list. -/
def plan_commands (raw : String) : Except Nat (List String) :=
  let commands := split_oracle_text raw
  if commands.isEmpty then Except.error 1 else Except.ok commands

/-- Validity of the digit part of a Python integer literal after the first
digit: digits, with single underscores allowed only between digits. -/
def pyIntRest : List Char → Bool
  | [] => true
  | '_' :: [] => false
  | '_' :: d :: rest => d.isDigit && pyIntRest rest
  | d :: rest => d.isDigit && pyIntRest rest

/-- Validity of the digit part of a Python integer literal: at least one
digit, then `pyIntRest`. -/
def pyIntValid : List Char → Bool
  | [] => false
  | d :: rest => d.isDigit && pyIntRest rest

/-- Decimal value of the digit characters of a list, skipping grouping
underscores. -/
def digitsToNat (cs : List Char) : Nat :=
  cs.foldl (fun acc c => if c.isDigit then acc * 10 + (c.toNat - 48) else acc) 0

/-- Python `int(s)` for a decimal string: optional surrounding whitespace,
optional sign, digits with optional single underscore grouping; `none` models
the ValueError raised on anything else. -/
def pyInt (s : String) : Option Int :=
  let cs := ((s.toList.dropWhile isPySpace).reverse.dropWhile isPySpace).reverse
  match cs with
  | '+' :: rest =>
    if pyIntValid rest then some (Int.ofNat (digitsToNat rest)) else none
  | '-' :: rest =>
    if pyIntValid rest then some (-(Int.ofNat (digitsToNat rest))) else none
  | rest =>
    if pyIntValid rest then some (Int.ofNat (digitsToNat rest)) else none

/-- The errors configparser interpolation can raise: `badPercent` models
InterpolationSyntaxError (a percent sign followed by neither a percent sign
nor a well-formed key reference), `missingOption` models
InterpolationMissingOptionError (a reference to an option absent from the
section and the DEFAULT section), and `tooDeep` models
InterpolationDepthError. All three are subclasses of configparser.Error and
none of ValueError. -/
inductive ConfigError where
  | badPercent
  | missingOption
  | tooDeep
deriving DecidableEq

/-- One pass of CPython configparser BasicInterpolation over a raw value (the
scanning loop of `_interpolate_some` at a fixed depth). Two percent signs
yield a literal percent sign; a percent sign followed by an open parenthesis
starts a key reference of the shape key, close parenthesis, letter s (the
regex KEYCRE with a non-empty key), whose referenced raw value from `env` is
substituted, descending through `nested` when that value itself contains a
percent sign; a percent sign followed by anything else (including end of
input, an unterminated reference, an empty key, or a reference not ending in
the letter s) is an InterpolationSyntaxError. The accumulator `keyAcc` is
`none` while scanning literally and holds the reversed key characters while
inside a reference. -/
def interpAux (env : String → Option String)
    (nested : String → Except ConfigError (List Char)) :
    Option (List Char) → List Char → Except ConfigError (List Char)
  | none, [] => Except.ok []
  | none, '%' :: rest =>
    match rest with
    | '%' :: rest2 =>
      match interpAux env nested none rest2 with
      | Except.error e => Except.error e
      | Except.ok t => Except.ok ('%' :: t)
    | '(' :: rest2 => interpAux env nested (some []) rest2
    | _ => Except.error ConfigError.badPercent
  | none, c :: rest =>
    match interpAux env nested none rest with
    | Except.error e => Except.error e
    | Except.ok t => Except.ok (c :: t)
  | some _, [] => Except.error ConfigError.badPercent
  | some keyAcc, ')' :: rest =>
    match rest with
    | 's' :: rest2 =>
      if keyAcc.isEmpty then Except.error ConfigError.badPercent
      else
        match env (String.mk keyAcc.reverse) with
        | none => Except.error ConfigError.missingOption
        | some v =>
          if strIn "%" v then
            match nested v with
            | Except.error e => Except.error e
            | Except.ok sub =>
              match interpAux env nested none rest2 with
              | Except.error e => Except.error e
              | Except.ok t => Except.ok (sub ++ t)
          else
            match interpAux env nested none rest2 with
            | Except.error e => Except.error e
            | Except.ok t => Except.ok (v.toList ++ t)
    | _ => Except.error ConfigError.badPercent
  | some keyAcc, c :: rest => interpAux env nested (some (c :: keyAcc)) rest

/-- Recursive interpolation with the depth limit: CPython
MAX_INTERPOLATION_DEPTH is 10, the top-level pass runs at depth 1, and the
pass at depth 11 raises InterpolationDepthError on entry; `fuel` counts the
remaining admissible passes, so the top-level call uses fuel 10. -/
def interpolate_value (env : String → Option String) :
    Nat → String → Except ConfigError (List Char)
  | 0, _ => Except.error ConfigError.tooDeep
  | fuel + 1, v => interpAux env (interpolate_value env fuel) none v.toList

/-- configparser BasicInterpolation.before_get on a raw stored value, as run
by `get` inside `getint`: the value is interpolated from depth 1, referenced
options being looked up in `env` (the section options chained with the
DEFAULT section; optionxform is the identity because get_config sets it to
str). -/
def basic_interpolate (env : String → Option String) (value : String) :
    Except ConfigError String :=
  match interpolate_value env 10 value with
  | Except.error e => Except.error e
  | Except.ok cs => Except.ok (String.mk cs)

/-- ai.py lines 139-145: `get_safety_mode`. The raw stored value of
`Settings.safety_mode` is `none` when the key or its section is missing, in
which case `getint` returns the fallback 0 (its fallback handling covers only
NoSectionError and NoOptionError). A present value is first interpolated by
configparser BasicInterpolation — whose errors are configparser.Error, not
ValueError, so the except clause at ai.py line 144 does not catch them and
they propagate, modelled as `Except.error` — and then converted with `int`,
whose ValueError is caught and mapped to 0; an integer outside 0 and 1 is
mapped to 0. -/
def get_safety_mode (env : String → Option String) (raw : Option String) :
    Except ConfigError Int :=
  match raw with
  | none => Except.ok 0
  | some s =>
    match basic_interpolate env s with
    | Except.error e => Except.error e
    | Except.ok t =>
      match pyInt t with
      | none => Except.ok 0
      | some mode => Except.ok (if mode = 0 ∨ mode = 1 then mode else 0)

/-- The result of one shell execution, ai.py `subprocess.run`: captured
stdout, captured stderr, and the exit code. -/
structure ExecResult where
  stdout : String
  stderr : String
  returncode : Int
deriving DecidableEq

/-- Outcome of the multi-step sequence loop: the commands actually handed to
`execute_and_handle_history` in order, the process exit code, and the final
persisted command-history log. -/
structure SeqOutcome where
  executed : List String
  exitCode : Int
  history : List String
deriving DecidableEq

/-- ai.py lines 1190-1207: the accepted-sequence execution loop. Each step is
executed; on a non-zero exit code the process exits immediately with that code
(the failed step is not recorded); otherwise the step is appended to the
persisted command history before the next step runs; after the last step the
process exits with code 0. -/
def run_sequence (exec : String → ExecResult) :
    List String → List String → SeqOutcome
  | [], h => { executed := [], exitCode := 0, history := h }
  | c :: rest, h =>
    let r := exec c
    if r.returncode ≠ 0 then
      { executed := [c], exitCode := r.returncode, history := h }
    else
      let o := run_sequence exec rest (add_to_command_history h c)
      { executed := c :: o.executed, exitCode := o.exitCode,
        history := o.history }

/-- A deterministic stand-in executor for concrete evaluations: the command
`false` exits 1, everything else exits 0. -/
def demoExec : String → ExecResult := fun c =>
  if c = "false" then { stdout := "", stderr := "", returncode := 1 }
  else { stdout := "ok", stderr := "", returncode := 0 }

/-- Modelled from the spec: `get_fixed_cmd` is called at ai.py line 1231 but
its definition is not under src. The specification treats it as the black-box
oracle operation generating one corrected command from the failed command text
and its stderr; it is modelled as an arbitrary function supplied as a
parameter. -/
def get_fixed_cmd (fixOracle : String → String → String)
    (cmd stderrText : String) : String :=
  fixOracle cmd stderrText

/-- Observable events of the single-command post-execution phase: the commands
handed to `execute_and_handle_history` in order, the requests made to the fix
oracle, the safety verdicts computed for fixes, and the final persisted
command-history log. -/
structure FixFlowOutcome where
  executed : List String
  fixRequests : List (String × String)
  fixVerdicts : List (Bool × String)
  history : List String
deriving DecidableEq

/-- ai.py lines 1210-1257: the single-command execution and auto-correct
phase. The command is executed; on exit code 0 it is appended to the command
history. On a non-zero exit with auto-correct enabled and non-empty stderr,
one corrected command is requested from the oracle, classified, shown, and —
unless the confirmation answer lowercases to the single letter n — executed
once; the fix result itself triggers no further correction. -/
def run_single_autofix (research : String → String → Bool)
    (safe_patterns dangerous_patterns : List String)
    (exec : String → ExecResult) (fixOracle : String → String → String)
    (autocorrect : Bool) (answer : String) (cmd : String) (h : List String) :
    FixFlowOutcome :=
  let result := exec cmd
  let h1 := if result.returncode = 0 then add_to_command_history h cmd else h
  if result.returncode ≠ 0 ∧ autocorrect = true then
    if result.stderr ≠ "" then
      let fixed := get_fixed_cmd fixOracle cmd result.stderr
      let verdict :=
        analyze_command_safety research safe_patterns dangerous_patterns fixed
      if pyLower answer ≠ "n" then
        { executed := [cmd, fixed], fixRequests := [(cmd, result.stderr)],
          fixVerdicts := [verdict], history := h1 }
      else
        { executed := [cmd], fixRequests := [(cmd, result.stderr)],
          fixVerdicts := [verdict], history := h1 }
    else
      { executed := [cmd], fixRequests := [], fixVerdicts := [], history := h1 }
  else
    { executed := [cmd], fixRequests := [], fixVerdicts := [], history := h1 }

theorem scan_patterns_eq_none (research : String → String → Bool) (cmd : String)
    (l : List String) (h : ∀ p ∈ l, research p cmd = false) :
    scan_patterns research cmd l = none := by
  induction l with
  | nil => rfl
  | cons q rest ih =>
    have hq : research q cmd = false := h q (List.mem_cons_self q rest)
    have hrest : ∀ p ∈ rest, research p cmd = false := fun p hp =>
      h p (List.mem_cons_of_mem q hp)
    simp [scan_patterns, hq, ih hrest]

theorem scan_patterns_isSome (research : String → String → Bool) (cmd : String)
    (l : List String) (p : String) (hp : p ∈ l) (hm : research p cmd = true) :
    (scan_patterns research cmd l).isSome = true := by
  induction l with
  | nil => cases hp
  | cons q rest ih =>
    by_cases hq : research q cmd
    · simp [scan_patterns, hq]
    · rcases List.mem_cons.mp hp with h1 | h2
      · subst h1; exact absurd hm hq
      · simp [scan_patterns, hq, ih h2]

/-- Claim C1: any command for which some configured Safe pattern matches
(case-insensitive regex search) is classified Safe with the fixed
recognized-safe reason, regardless of the dangerous pattern list and of the
later heuristic checks. -/
theorem c1_safe_pattern_precedence (research : String → String → Bool)
    (safe_patterns dangerous_patterns : List String) (cmd : String)
    (hmatch : ∃ p ∈ safe_patterns, research p cmd = true) :
    analyze_command_safety research safe_patterns dangerous_patterns cmd
      = (true, safeReason) := by
  obtain ⟨p, hp, hm⟩ := hmatch
  have hs := scan_patterns_isSome research cmd safe_patterns p hp hm
  rcases hsc : scan_patterns research cmd safe_patterns with _ | q
  · rw [hsc] at hs; simp at hs
  · simp [analyze_command_safety, hsc]

/-- Witness for C1: `LS -la /etc` matches the safe pattern `ls` while also
matching the dangerous pattern `/etc` and containing a system path; the safe
verdict wins. -/
theorem c1_safe_pattern_precedence_witness :
    analyze_command_safety pySearchLiteral ["ls"] ["/etc"] "LS -la /etc"
      = (true, safeReason) :=
  c1_safe_pattern_precedence pySearchLiteral ["ls"] ["/etc"] "LS -la /etc"
    ⟨"ls", by decide, by decide⟩

/-- Counterexample to claim C2: with no dangerous-pattern file on disk (and no
safe-pattern file either), the pattern lists are empty — the source defines no
built-in default set — and `rm -rf /` contains no pipe, no redirection, and no
download token, so `analyze_command_safety` returns Safe with the generic
fallback reason, not Unsafe. -/
theorem c2_default_coverage_counterexample :
    analyze_with_files pySearchLiteral FileState.absent FileState.absent
      "rm -rf /" = Except.ok (true, genericSafeReason) := rfl

/-- Claim C2 as amended: `rm -rf /` is classified Unsafe only when the
dangerous-pattern list actually loaded from `dangerous_patterns.txt` contains a
matching pattern and no safe pattern matches; there is no built-in default
pattern set, so with the file absent the dangerous list is empty and the
command falls through to the permissive Safe fallback. -/
theorem c2_dangerous_pattern_unsafe (research : String → String → Bool)
    (safe_patterns dangerous_patterns : List String) (cmd : String)
    (hs : ∀ p ∈ safe_patterns, research p cmd = false)
    (hd : ∃ p ∈ dangerous_patterns, research p cmd = true) :
    (analyze_command_safety research safe_patterns dangerous_patterns cmd).1
      = false := by
  have h1 := scan_patterns_eq_none research cmd safe_patterns hs
  obtain ⟨p, hp, hm⟩ := hd
  have h2 := scan_patterns_isSome research cmd dangerous_patterns p hp hm
  rcases h3 : scan_patterns research cmd dangerous_patterns with _ | q
  · rw [h3] at h2; simp at h2
  · simp [analyze_command_safety, h1, h3]

/-- Witness for the amended C2: with the pattern `rm -rf /` present in the
dangerous list, the command `sudo rm -rf /` is classified Unsafe. -/
theorem c2_dangerous_pattern_unsafe_witness :
    (analyze_command_safety pySearchLiteral [] ["rm -rf /"] "sudo rm -rf /").1
      = false :=
  c2_dangerous_pattern_unsafe pySearchLiteral [] ["rm -rf /"] "sudo rm -rf /"
    (by decide) ⟨"rm -rf /", by decide, by decide⟩

/-- Counterexample to claim C3: on an absent pattern file the load yields the
empty list — not a non-empty built-in default set, and nothing is written back
to disk (the source block contains no default list and no write call) — and on
a present but unreadable file the exception is not caught at all, since only
FileNotFoundError is handled. -/
theorem c3_pattern_load_counterexample :
    read_pattern_file FileState.absent = Except.ok ([] : List String)
    ∧ read_pattern_file FileState.unreadable = Except.error "PermissionError" :=
  ⟨rfl, rfl⟩

/-- Claim C3 as amended: when a pattern file is absent the load does not raise
(FileNotFoundError is caught, a warning is printed) and the empty pattern list
is used for that category; no built-in default set exists and nothing is
persisted to disk. Only FileNotFoundError is caught, so a present but
unreadable file raises and the analysis does not complete. -/
theorem c3_pattern_load_amended (research : String → String → Bool)
    (cmd : String) :
    analyze_with_files research FileState.absent FileState.absent cmd
      = Except.ok (analyze_command_safety research [] [] cmd)
    ∧ ∀ f, analyze_with_files research FileState.unreadable f cmd
      = Except.error "PermissionError" :=
  ⟨rfl, fun _ => rfl⟩

/-- Counterexample to claim C9: in `echo bash | grep a` every shell token
occurs only to the left of the pipe — the claimed trigger condition computed on
the portion right of the pipe is false — yet the source checks the tokens
against the whole lowercased command, so the pipe verdict is still returned. -/
theorem c9_pipe_rhs_counterexample :
    analyze_command_safety pySearchLiteral [] [] "echo bash | grep a"
      = (false, pipeReason)
    ∧ specPipeTrigger "echo bash | grep a" = false := by
  decide

/-- Claim C9 as amended: for a command matching no configured pattern, the
verdict is Unsafe with the pipe reason exactly when the command contains a pipe
character and one of the shell-invocation tokens occurs anywhere in the
lowercased command — on either side of the pipe, not only to its right. -/
theorem c9_pipe_anywhere (research : String → String → Bool)
    (safe_patterns dangerous_patterns : List String) (cmd : String)
    (hs : ∀ p ∈ safe_patterns, research p cmd = false)
    (hd : ∀ p ∈ dangerous_patterns, research p cmd = false) :
    analyze_command_safety research safe_patterns dangerous_patterns cmd
        = (false, pipeReason)
      ↔ (strIn "|" cmd && shellTokens.any (fun t => strIn t (pyLower cmd)))
          = true := by
  have h1 := scan_patterns_eq_none research cmd safe_patterns hs
  have h2 := scan_patterns_eq_none research cmd dangerous_patterns hd
  simp only [analyze_command_safety, h1, h2]
  constructor
  · intro h
    by_cases hc : (strIn "|" cmd && shellTokens.any (fun t => strIn t (pyLower cmd))) = true
    · exact hc
    · exfalso
      simp only [hc, if_false] at h
      split_ifs at h <;> simp_all [pipeReason, redirectReason, downloadReason,
        genericSafeReason]
  · intro hc
    simp [hc]

/-- Witness for the amended C9: `cat run.txt | sh` has a pipe and a shell token
(here on the right of the pipe) and no pattern matches, so the pipe verdict is
returned. -/
theorem c9_pipe_anywhere_witness :
    analyze_command_safety pySearchLiteral ["zzz"] ["qqq"] "cat run.txt | sh"
      = (false, pipeReason) :=
  (c9_pipe_anywhere pySearchLiteral ["zzz"] ["qqq"] "cat run.txt | sh"
    (by decide) (by decide)).mpr (by decide)

/-- Claim C7: appending a command equal to the current last history entry
leaves the persisted log unchanged; appending any other command (or appending
to an empty log) appends it at the end, evicting from the front only as the
cap requires — regardless of equal entries occurring earlier in the log. -/
theorem c7_history_consecutive_dedup (h : List String) (c : String) :
    (h.getLast? = some c → add_to_command_history h c = h)
    ∧ (h.getLast? ≠ some c →
        add_to_command_history h c = h.drop (h.length + 1 - 100) ++ [c]) := by
  constructor
  · intro hlast
    have hne : h ≠ [] := by
      intro he; rw [he] at hlast; simp [List.getLast?] at hlast
    have hemp : h.isEmpty = false := by simp [List.isEmpty_iff, hne]
    simp [add_to_command_history, hemp, hlast]
  · intro hlast
    have hcond : h.isEmpty = true ∨ h.getLast? ≠ some c := Or.inr hlast
    have hlen : h.length + 1 - 100 ≤ h.length := by omega
    simp only [add_to_command_history, if_pos hcond, save_command_history,
      takeLast, List.length_append, List.length_cons, List.length_nil]
    rw [List.drop_append_of_le_length hlen]

/-- Witness for C7: on the log `[a, b]`, appending `b` (equal to the last
entry) changes nothing, while appending `a` — equal to an earlier,
non-adjacent entry — appends a new copy at the end. -/
theorem c7_history_consecutive_dedup_witness :
    add_to_command_history ["a", "b"] "b" = ["a", "b"]
    ∧ add_to_command_history ["a", "b"] "a" = ["a", "b", "a"] :=
  ⟨(c7_history_consecutive_dedup ["a", "b"] "b").1 (by decide),
   ((c7_history_consecutive_dedup ["a", "b"] "a").2 (by decide)).trans (by decide)⟩

/-- Claim C8: starting from any persisted log within the cap of 100, an append
never grows the log beyond the cap, and an append onto a full log evicts
exactly the oldest entry, keeping the order of the survivors. -/
theorem c8_history_cap (h : List String) (c : String) (hlen : h.length ≤ 100) :
    (add_to_command_history h c).length ≤ 100
    ∧ (h.length = 100 → h.getLast? ≠ some c →
        add_to_command_history h c = h.drop 1 ++ [c]) := by
  constructor
  · by_cases hcond : h.isEmpty = true ∨ h.getLast? ≠ some c
    · simp only [add_to_command_history, if_pos hcond, save_command_history,
        takeLast, List.length_drop, List.length_append, List.length_cons,
        List.length_nil]
      omega
    · simp only [add_to_command_history, if_neg hcond]
      exact hlen
  · intro hfull hlast
    have := (c7_history_consecutive_dedup h c).2 hlast
    rw [this, hfull]

/-- Witness for C8: appending a fresh command to a full log of 100 entries
keeps the length at 100 and shifts out exactly the oldest entry. -/
theorem c8_history_cap_witness :
    (add_to_command_history (List.replicate 100 "x") "y").length ≤ 100
    ∧ add_to_command_history (List.replicate 100 "x") "y"
        = (List.replicate 100 "x").drop 1 ++ ["y"] :=
  ⟨(c8_history_cap (List.replicate 100 "x") "y" (by decide)).1,
   (c8_history_cap (List.replicate 100 "x") "y" (by decide)).2 (by decide)
     (by decide)⟩

/-- Claim C6: splitting raw oracle text yields the stripped non-empty lines in
order with no deduplication; the documented example holds, the empty text
yields no steps, the program then exits with code 1, and any non-empty split
proceeds to execution with exactly those steps. -/
theorem c6_split_oracle_text :
    split_oracle_text "cmd1\n\ncmd2\n" = ["cmd1", "cmd2"]
    ∧ split_oracle_text "ls\nls" = ["ls", "ls"]
    ∧ plan_commands "" = Except.error 1
    ∧ ∀ raw, split_oracle_text raw ≠ [] →
        plan_commands raw = Except.ok (split_oracle_text raw) := by
  refine ⟨by decide, by decide, rfl, ?_⟩
  intro raw hne
  have : (split_oracle_text raw).isEmpty = false := by
    simp [List.isEmpty_iff, hne]
  simp [plan_commands, this]

/-- Witness for C6: a one-line oracle reply proceeds as a single step. -/
theorem c6_split_oracle_text_witness :
    plan_commands " ls \n" = Except.ok ["ls"] := by
  have h := c6_split_oracle_text.2.2.2 " ls \n" (by decide)
  rw [h]
  rfl

/-- Counterexample to claim C10: reading the safety mode is not total. For a
stored value of 50 followed by a percent sign, `getint` first applies
BasicInterpolation, which raises InterpolationSyntaxError on the stray percent
sign at the end; that error is a configparser.Error, not a ValueError, so the
except clause of `get_safety_mode` does not catch it and the call raises
instead of yielding 0. -/
theorem c10_safety_mode_counterexample :
    get_safety_mode (fun _ => none) (some "50%")
      = Except.error ConfigError.badPercent := rfl

/-- Claim C10 as amended: reading the safety mode yields 0 or 1 on every
configuration state on which `getint` completes — a missing key or section
yields the fallback 0, an interpolated value that is not a valid integer
yields 0 through the caught ValueError, and an integer outside 0 and 1 yields
0; auto-run (value 1) is enabled only when interpolation succeeds and its
result parses as the integer 1. The read is not total: configparser
interpolation errors (a stray percent sign, a reference to a missing option,
or nesting beyond the depth limit) are not ValueError and propagate out of
`get_safety_mode`, and an error is possible only on that interpolation path. -/
theorem c10_safety_mode_amended (env : String → Option String)
    (raw : Option String) :
    ((∃ e, get_safety_mode env raw = Except.error e)
      ∨ get_safety_mode env raw = Except.ok 0
      ∨ get_safety_mode env raw = Except.ok 1)
    ∧ (get_safety_mode env raw = Except.ok 1
        ↔ ∃ s t, raw = some s ∧ basic_interpolate env s = Except.ok t
            ∧ pyInt t = some 1)
    ∧ (∀ e, get_safety_mode env raw = Except.error e
        → ∃ s, raw = some s ∧ basic_interpolate env s = Except.error e) := by
  rcases raw with _ | s
  · refine ⟨Or.inr (Or.inl rfl), ?_, ?_⟩
    · constructor
      · intro h
        exact absurd (Except.ok.inj h) (by decide)
      · rintro ⟨s, t, hs, _⟩
        cases hs
    · intro e h
      exact Except.noConfusion h
  · rcases hb : basic_interpolate env s with e | t
    · have hg : get_safety_mode env (some s) = Except.error e := by
        simp [get_safety_mode, hb]
      refine ⟨Or.inl ⟨e, hg⟩, ?_, ?_⟩
      · constructor
        · intro h
          rw [hg] at h
          exact Except.noConfusion h
        · rintro ⟨s2, t2, hs2, hb2, _⟩
          obtain rfl := (Option.some.inj hs2).symm
          rw [hb] at hb2
          exact Except.noConfusion hb2
      · intro e2 h
        rw [hg] at h
        obtain rfl := (Except.error.inj h).symm
        exact ⟨s, rfl, hb⟩
    · rcases hp : pyInt t with _ | mode
      · have hg : get_safety_mode env (some s) = Except.ok 0 := by
          simp [get_safety_mode, hb, hp]
        refine ⟨Or.inr (Or.inl hg), ?_, ?_⟩
        · constructor
          · intro h
            rw [hg] at h
            exact absurd (Except.ok.inj h) (by decide)
          · rintro ⟨s2, t2, hs2, hb2, hp2⟩
            obtain rfl := (Option.some.inj hs2).symm
            rw [hb] at hb2
            obtain rfl := (Except.ok.inj hb2).symm
            rw [hp] at hp2
            exact Option.noConfusion hp2
        · intro e h
          rw [hg] at h
          exact Except.noConfusion h
      · by_cases hm : mode = 0 ∨ mode = 1
        · have hg : get_safety_mode env (some s)
              = Except.ok mode := by
            simp [get_safety_mode, hb, hp, hm]
          refine ⟨?_, ?_, ?_⟩
          · rcases hm with h0 | h1
            · exact Or.inr (Or.inl (h0 ▸ hg))
            · exact Or.inr (Or.inr (h1 ▸ hg))
          · constructor
            · intro h
              rw [hg] at h
              exact ⟨s, t, rfl, hb, by rw [hp, Except.ok.inj h]⟩
            · rintro ⟨s2, t2, hs2, hb2, hp2⟩
              obtain rfl := (Option.some.inj hs2).symm
              rw [hb] at hb2
              obtain rfl := (Except.ok.inj hb2).symm
              rw [hp] at hp2
              rw [hg, Option.some.inj hp2]
          · intro e h
            rw [hg] at h
            exact Except.noConfusion h
        · have hg : get_safety_mode env (some s) = Except.ok 0 := by
            simp [get_safety_mode, hb, hp, hm]
          refine ⟨Or.inr (Or.inl hg), ?_, ?_⟩
          · constructor
            · intro h
              rw [hg] at h
              exact absurd (Except.ok.inj h) (by decide)
            · rintro ⟨s2, t2, hs2, hb2, hp2⟩
              obtain rfl := (Option.some.inj hs2).symm
              rw [hb] at hb2
              obtain rfl := (Except.ok.inj hb2).symm
              rw [hp] at hp2
              exact absurd (Option.some.inj hp2) (fun h1 => hm (Or.inr h1))
          · intro e h
            rw [hg] at h
            exact Except.noConfusion h

/-- Witness for the amended C10: the stored value 1 interpolates to itself and
enables auto-run through the iff of the amended theorem, and the
stray-percent value takes the propagated-error branch, which the theorem
traces back to the interpolation failure. -/
theorem c10_safety_mode_amended_witness :
    get_safety_mode (fun _ => none) (some "1") = Except.ok 1
    ∧ ∃ s, (some "50%" : Option String) = some s
        ∧ basic_interpolate (fun _ => none) s
            = Except.error ConfigError.badPercent :=
  ⟨((c10_safety_mode_amended (fun _ => none) (some "1")).2.1).mpr
      ⟨"1", "1", rfl, rfl, rfl⟩,
   (c10_safety_mode_amended (fun _ => none) (some "50%")).2.2
      ConfigError.badPercent rfl⟩

/-- Claim C4: in the accepted sequence flow, if every step before position `k`
exits zero and the step at `k` exits non-zero, then exactly the first `k + 1`
steps are executed in order (the remaining steps never run), the process exit
code is the exit code of step `k`, and the history log is the one obtained by
appending each of the first `k` successful steps individually, in order. -/
theorem c4_sequence_abort (exec : String → ExecResult) (cs : List String)
    (h : List String) (k : Nat) (hk : k < cs.length)
    (hok : ∀ c ∈ cs.take k, (exec c).returncode = 0)
    (hfail : (exec (cs.get ⟨k, hk⟩)).returncode ≠ 0) :
    run_sequence exec cs h =
      { executed := cs.take (k + 1),
        exitCode := (exec (cs.get ⟨k, hk⟩)).returncode,
        history := (cs.take k).foldl add_to_command_history h } := by
  induction cs generalizing k h with
  | nil => cases hk
  | cons c rest ih =>
    cases k with
    | zero =>
      simp only [List.get] at hfail
      simp [run_sequence, hfail]
    | succ k =>
      have hc : (exec c).returncode = 0 := by
        apply hok
        simp [List.take_succ_cons]
      have hk2 : k < rest.length := Nat.lt_of_succ_lt_succ hk
      have hok2 : ∀ x ∈ rest.take k, (exec x).returncode = 0 := by
        intro x hx
        apply hok
        simp [List.take_succ_cons, hx]
      have hfail2 : (exec (rest.get ⟨k, hk2⟩)).returncode ≠ 0 := hfail
      have hrec := ih (add_to_command_history h c) k hk2 hok2 hfail2
      have hcond : ¬((exec c).returncode ≠ 0) := by simp [hc]
      simp only [run_sequence, if_neg hcond, hrec]
      simp [List.take_succ_cons]

/-- Witness for C4: in the documented example the first step succeeds and is
recorded, the second fails with exit code 1, and the third never runs. -/
theorem c4_sequence_abort_witness :
    run_sequence demoExec ["echo A", "false", "echo B"] [] =
      { executed := ["echo A", "false"], exitCode := 1,
        history := ["echo A"] } :=
  (c4_sequence_abort demoExec ["echo A", "false", "echo B"] [] 1 (by decide)
    (by decide) (by decide)).trans (by decide)

/-- Claim C5: after a failed single-step execution, exactly one corrected
command is requested from the oracle precisely when the exit code is non-zero,
stderr is non-empty, and auto-correct is enabled; the fix is classified and is
executed at most once (and only if the prompt answer is not n); no second
auto-correct request ever occurs, regardless of the fix result. -/
theorem c5_autofix_once (research : String → String → Bool)
    (safe_patterns dangerous_patterns : List String)
    (exec : String → ExecResult) (fixOracle : String → String → String)
    (autocorrect : Bool) (answer : String) (cmd : String) (h : List String) :
    run_single_autofix research safe_patterns dangerous_patterns exec fixOracle
        autocorrect answer cmd h =
      { executed :=
          if ((exec cmd).returncode ≠ 0 ∧ (exec cmd).stderr ≠ ""
              ∧ autocorrect = true) ∧ pyLower answer ≠ "n" then
            [cmd, get_fixed_cmd fixOracle cmd (exec cmd).stderr]
          else [cmd],
        fixRequests :=
          if (exec cmd).returncode ≠ 0 ∧ (exec cmd).stderr ≠ ""
              ∧ autocorrect = true then
            [(cmd, (exec cmd).stderr)]
          else [],
        fixVerdicts :=
          if (exec cmd).returncode ≠ 0 ∧ (exec cmd).stderr ≠ ""
              ∧ autocorrect = true then
            [analyze_command_safety research safe_patterns dangerous_patterns
              (get_fixed_cmd fixOracle cmd (exec cmd).stderr)]
          else [],
        history :=
          if (exec cmd).returncode = 0 then add_to_command_history h cmd
          else h } := by
  by_cases hA : (exec cmd).returncode ≠ 0 <;>
    by_cases hB : (exec cmd).stderr ≠ "" <;>
      by_cases hC : autocorrect = true <;>
        by_cases hD : pyLower answer ≠ "n" <;>
          simp_all [run_single_autofix]
